import Mathlib

/-!
Formal model of the image-mosaic visualization utility `src/cv2_show.py`.

Pixel samples are modelled as exact rationals (the code operates on float32
or float64 arrays); numpy arrays are modelled by explicit dimensions together
with total indexing functions; fallible steps (assertions, numpy errors,
OpenCV errors) return `Except String`.  External primitives (cv2.resize,
cv2.imshow, cv2.waitKey) are modelled from their documented interface: the
pressed key, if any, is an input of the model.
-/

namespace CvShow

/-- DESIRED_HEIGHT = 500, the convenient size of the image to be shown. -/
def DESIRED_HEIGHT : ℕ := 500

/-- DEFAULT_BACKGROUND_COLOR = 0.3 * 255. -/
def DEFAULT_BACKGROUND_COLOR : ℚ := 0.3 * 255

/-- The numerical-stability epsilon 1e-15 used by both normalization sites. -/
def eps : ℚ := 1 / 10 ^ 15

/-- Maximum of a list of rationals, as np.max computes it; the empty list is
mapped to 0 (numpy raises there, and every caller in the model guards
emptiness before calling). -/
def listMax : List ℚ → ℚ
  | [] => 0
  | a :: l => l.foldl max a

/-- Python round(): round half to even; this is the
semantics of `round(...)` applied to the scaled sizes, and of the size
rounding the resize primitive performs internally. -/
def pyRound (x : ℚ) : ℤ :=
  if x - ⌊x⌋ < 1 / 2 then ⌊x⌋
  else if 1 / 2 < x - ⌊x⌋ then ⌊x⌋ + 1
  else if 2 ∣ ⌊x⌋ then ⌊x⌋ else ⌊x⌋ + 1

/-- Auxiliary search for the integer square root: the largest j ≤ k with
j * j ≤ n (0 when none exists). -/
def isqrtAux : ℕ → ℕ → ℕ
  | 0, _ => 0
  | k + 1, n => if (k + 1) * (k + 1) ≤ n then k + 1 else isqrtAux k n

/-- The integer square root: the largest r with r * r ≤ n.  This is the value
of int(np.floor(np.sqrt(n))) for every n in the exactly-representable range
of float64 (proved equal to Nat.sqrt below). -/
def isqrt (n : ℕ) : ℕ := isqrtAux n n

/-- best_grid: rows = int(np.floor(np.sqrt(N))), which for natural N is the
integer square root; cols = int(np.ceil(N / rows)), which for rows ≥ 1 is the
integer ceiling (N + rows - 1) / rows. -/
def best_grid (N : ℕ) : ℕ × ℕ :=
  (isqrt N, (N + isqrt N - 1) / isqrt N)

/-- The numpy dtypes the code distinguishes (only floating-point-ness is
ever tested). -/
inductive Dtype
  | float32
  | float64
  | uint8
deriving DecidableEq

/-- image.dtype in [np.float32, np.float64] -/
def Dtype.isFloat : Dtype → Bool
  | .float32 => true
  | .float64 => true
  | .uint8 => false

/-- A numpy image: dtype, height, width, optional trailing channel axis
(`none` models a 2-dim array, `some c` a 3-dim array with c channels) and
the sample values as a total indexing function (row, column, channel). -/
structure Img where
  dtype : Dtype
  h : ℕ
  w : ℕ
  channels : Option ℕ
  pix : ℕ → ℕ → ℕ → ℚ

/-- Effective number of channels when sampling (a 2-dim array yields one
sample per position). -/
def Img.cn (img : Img) : ℕ := img.channels.getD 1

/-- All samples of the image in row-major order. -/
def Img.samples (img : Img) : List ℚ :=
  (List.range img.h).flatMap fun i =>
    (List.range img.w).flatMap fun j =>
      (List.range img.cn).map fun c => img.pix i j c

/-- np.max(image): raw maximum over all samples. -/
def npMax (img : Img) : ℚ := listMax img.samples

/-- np.max(np.abs(image)): maximum absolute value over all samples. -/
def npMaxAbs (img : Img) : ℚ := listMax (img.samples.map fun v => |v|)

/-- len(image[image < 0]) > 0: the image holds a strictly negative sample. -/
def hasNeg (img : Img) : Prop := ∃ v ∈ img.samples, v < 0

instance (img : Img) : Decidable (hasNeg img) := by
  unfold hasNeg
  infer_instance

/-- visualize_grayscale_negative_values: asserts floating-point dtype,
promotes a 2-dim image to a trailing singleton channel axis, asserts the
channel count is then 1, and stacks the channels
blue = where(v < 0, -v, 0), green = 0, red = where(v < 0, 0, v). -/
def visualize_grayscale_negative_values (image : Img) : Except String Img :=
  if image.dtype.isFloat = false then .error "Image is not floating point"
  else if image.channels.getD 1 ≠ 1 then .error "Image is already 3-channel"
  else .ok
    { dtype := image.dtype
      h := image.h
      w := image.w
      channels := some 3
      pix := fun i j c =>
        if c = 0 then (if image.pix i j 0 < 0 then -(image.pix i j 0) else 0)
        else if c = 1 then 0
        else if image.pix i j 0 < 0 then 0 else image.pix i j 0 }

/-- The wait parameter of show_image: Python bool, or int milliseconds. -/
inductive WaitArg
  | bool (b : Bool)
  | int (t : ℤ)

/-- wait_ms = (0 if wait else 1) if isinstance(wait, bool) else wait -/
def waitMs : WaitArg → ℤ
  | .bool b => if b then 0 else 1
  | .int t => t

/-- The value cv2.waitKey reports: the code of the pressed key, or -1 when
no key was pressed within the wait window. -/
def keyVal : Option ℕ → ℤ
  | none => -1
  | some k => (k : ℤ)

/-- The normalization performed by show_image:
image / (np.max(image) + eps) * 255 — note the raw maximum. -/
def normalize_raw (img : Img) : Img :=
  { img with pix := fun i j c => img.pix i j c / (npMax img + eps) * 255 }

/-- Modelled from the spec: the external resize primitive (cv2.resize with
INTER_NEAREST) on a possibly multi-channel image.  The output size rounds
the scaled source size; sampling is nearest-neighbor; the primitive fails on
an empty source or an empty computed output size. -/
def cvResizeImg (fx fy : ℚ) (img : Img) : Except String Img :=
  if img.h = 0 ∨ img.w = 0 then .error "resize: empty source"
  else if pyRound (fy * img.h) ≤ 0 ∨ pyRound (fx * img.w) ≤ 0 then
    .error "resize: empty output size"
  else .ok { img with
    h := (pyRound (fy * img.h)).toNat,
    w := (pyRound (fx * img.w)).toNat,
    pix := fun i j c =>
      img.pix (min (⌊(i : ℚ) / fy⌋).toNat (img.h - 1))
        (min (⌊(j : ℚ) / fx⌋).toNat (img.w - 1)) c }

/-- The stages of show_image that precede display: optional whole-buffer
normalization (raw max), then optional resize to DESIRED_HEIGHT. -/
def show_image_pre (image : Img) (resize_to_fit normalize : Bool) :
    Except String Img :=
  match (if normalize = true then
      (if image.h = 0 ∨ image.w = 0 ∨ image.cn = 0 then
        (.error "zero-size array reduction" : Except String Img)
      else .ok (normalize_raw image))
    else .ok image) with
  | .error e => .error e
  | .ok img1 =>
    if resize_to_fit = true then
      if img1.h = 0 then .error "division by zero"
      else cvResizeImg ((DESIRED_HEIGHT : ℚ) / img1.h)
        ((DESIRED_HEIGHT : ℚ) / img1.h) img1
    else .ok img1

/-- show_image: asserts floating-point dtype, optionally normalizes and
resizes, applies the sign-encoding only when visualize_negative is set and
the buffer holds a negative sample, hands buffer / 255 to the display
primitive, and maps the reported key through
`not cv2.waitKey(wait_ms) in [27, ord(q)]`.  Returns the displayed buffer
together with that boolean. -/
def show_image (image : Img) (wait : WaitArg)
    (resize_to_fit normalize visualize_negative : Bool) (key : Option ℕ) :
    Except String (Img × Bool) :=
  if image.dtype.isFloat = false then .error "Image is not floating point"
  else match show_image_pre image resize_to_fit normalize with
  | .error e => .error e
  | .ok buf =>
    match (if visualize_negative = true ∧ hasNeg buf
        then visualize_grayscale_negative_values buf else .ok buf) with
    | .error e => .error e
    | .ok buf2 =>
      let _wms : ℤ := waitMs wait
      .ok ({ buf2 with pix := fun i j c => buf2.pix i j c / 255 },
        !decide (keyVal key = 27 ∨ keyVal key = 113))

/-- Row-major list of the samples of a 2-dim pixel function. -/
def samples2 (h w : ℕ) (f : ℕ → ℕ → ℚ) : List ℚ :=
  (List.range h).flatMap fun i => (List.range w).map fun j => f i j

/-- np.max(np.abs(image)) over a 2-dim pixel function. -/
def maxAbs2 (h w : ℕ) (f : ℕ → ℕ → ℚ) : ℚ :=
  listMax ((samples2 h w f).map fun v => |v|)

/-- The per-image normalization inside the mosaic loop of show_images_grid:
image / (np.max(np.abs(image)) + eps) * 255 — note the absolute maximum. -/
def normalize_abs2 (h w : ℕ) (f : ℕ → ℕ → ℚ) : ℕ → ℕ → ℚ :=
  fun i j => f i j / (maxAbs2 h w f + eps) * 255

/-- Modelled from the spec: the external resize primitive on a 2-dim buffer,
as invoked inside the mosaic loop (cv2.resize with fx = width scale and
fy = height scale, INTER_NEAREST). -/
def cvResize2D (fx fy : ℚ) (h w : ℕ) (f : ℕ → ℕ → ℚ) :
    Except String (ℕ × ℕ × (ℕ → ℕ → ℚ)) :=
  if h = 0 ∨ w = 0 then .error "resize: empty source"
  else if pyRound (fy * h) ≤ 0 ∨ pyRound (fx * w) ≤ 0 then
    .error "resize: empty output size"
  else .ok ((pyRound (fy * h)).toNat, (pyRound (fx * w)).toNat,
    fun i j => f (min (⌊(i : ℚ) / fy⌋).toNat (h - 1))
      (min (⌊(j : ℚ) / fx⌋).toNat (w - 1)))

/-- Per-cell processing inside the mosaic loop of show_images_grid: resize
image n of the batch when resize_to_fit is set, then normalize it per-image
when normalize is set.  Returns the processed cell height, width and pixels. -/
def cellImage (batch : ℕ → ℕ → ℕ → ℚ) (img_height img_width : ℕ)
    (resize_to_fit normalize : Bool) (width_scaling height_scaling : ℚ)
    (n : ℕ) : Except String (ℕ × ℕ × (ℕ → ℕ → ℚ)) :=
  match (if resize_to_fit = true then
      cvResize2D width_scaling height_scaling img_height img_width
        (fun i j => batch n i j)
    else .ok (img_height, img_width, fun i j => batch n i j)) with
  | .error e => .error e
  | .ok (rh, rw, f) =>
    if normalize = true then
      if rh = 0 ∨ rw = 0 then .error "zero-size array reduction"
      else .ok (rh, rw, normalize_abs2 rh rw f)
    else .ok (rh, rw, f)

/-- The grid geometry computed by show_images_grid: layout from best_grid,
height_scaling = (DESIRED_HEIGHT - (rows + 1) * padding) / (rows * height),
width_scaling = height_scaling (aspect ratio kept), and the new cell sizes
(rounded scaled sizes when resizing, the source sizes otherwise). -/
structure Geometry where
  n_rows : ℕ
  n_cols : ℕ
  height_scaling : ℚ
  width_scaling : ℚ
  new_height : ℤ
  new_width : ℤ

def gridGeometry (n_images img_height img_width padding : ℕ)
    (resize_to_fit : Bool) : Geometry :=
  let rows := (best_grid n_images).1
  let cols := (best_grid n_images).2
  let hs : ℚ := ((DESIRED_HEIGHT : ℚ) - (rows + 1) * padding)
    / ((rows : ℚ) * img_height)
  { n_rows := rows
    n_cols := cols
    height_scaling := hs
    width_scaling := hs
    new_height := if resize_to_fit = true then pyRound (hs * img_height)
      else (img_height : ℤ)
    new_width := if resize_to_fit = true then pyRound (hs * img_width)
      else (img_width : ℤ) }

/-- grid_image[slice_h, slice_w] = f: overwrite the placement rectangle of
one cell with the processed cell pixels. -/
def placeImage (g : ℕ → ℕ → ℚ) (bi bj rh rw : ℕ) (f : ℕ → ℕ → ℚ) :
    ℕ → ℕ → ℚ :=
  fun i j =>
    if bi ≤ i ∧ i < bi + rh ∧ bj ≤ j ∧ j < bj + rw then f (i - bi) (j - bj)
    else g i j

/-- Membership of canvas point (i, j) in the placement rectangle of grid
cell rc, for cell size nh × nw and the given padding. -/
def inRect (padding nh nw : ℕ) (rc : ℕ × ℕ) (i j : ℕ) : Prop :=
  (rc.1 + 1) * padding + rc.1 * nh ≤ i ∧
  i < (rc.1 + 1) * padding + rc.1 * nh + nh ∧
  (rc.2 + 1) * padding + rc.2 * nw ≤ j ∧
  j < (rc.2 + 1) * padding + rc.2 * nw + nw

instance (padding nh nw : ℕ) (rc : ℕ × ℕ) (i j : ℕ) :
    Decidable (inRect padding nh nw rc i j) := by
  unfold inRect
  infer_instance

/-- The row-major iteration order of the assembly loop. -/
def gridPairs (rows cols : ℕ) : List (ℕ × ℕ) :=
  (List.range rows).flatMap fun r => (List.range cols).map fun c => (r, c)

/-- One iteration of the assembly loop: skip cells beyond the batch,
otherwise process the cell image and write it into its placement rectangle.
The natural-number component counts invocations of the resize primitive;
numpy raises when the processed shape does not match the slice shape. -/
def assembleStep (batch : ℕ → ℕ → ℕ → ℚ)
    (n_images img_height img_width padding cols nh nw : ℕ)
    (resize_to_fit normalize : Bool) (ws hs : ℚ)
    (st : Except String (ℕ → ℕ → ℚ) × ℕ) (rc : ℕ × ℕ) :
    Except String (ℕ → ℕ → ℚ) × ℕ :=
  match st with
  | (.error e, cnt) => (.error e, cnt)
  | (.ok g, cnt) =>
    if n_images ≤ rc.1 * cols + rc.2 then (.ok g, cnt)
    else
      let cnt2 := if resize_to_fit = true then cnt + 1 else cnt
      match cellImage batch img_height img_width resize_to_fit normalize ws hs
          (rc.1 * cols + rc.2) with
      | .error e => (.error e, cnt2)
      | .ok (rh, rw, f) =>
        if rh = nh ∧ rw = nw then
          (.ok (placeImage g ((rc.1 + 1) * padding + rc.1 * nh)
            ((rc.2 + 1) * padding + rc.2 * nw) nh nw f), cnt2)
        else (.error "could not broadcast input array", cnt2)

/-- images.squeeze(axis=-1): drops the last axis of the shape; numpy raises
when the length of that axis is not one. -/
def squeezeLast (shape : List ℕ) : Except String (List ℕ) :=
  match shape.getLast? with
  | some 1 => .ok shape.dropLast
  | _ => .error "cannot select an axis to squeeze out which has size not equal to one"

/-- The output of show_images_grid: the geometry, the canvas size, the
assembled canvas, and the displayed buffer and quit boolean from the final
show_image call. -/
structure GridOut where
  geom : Geometry
  gridH : ℕ
  gridW : ℕ
  grid : ℕ → ℕ → ℚ
  displayed : Img
  quit : Bool

/-- The canvas height np.ones is asked for:
n_rows * new_height + total_row_padding (an integer that can be negative for
degenerate scalings, in which case np.ones raises). -/
def gridHeightZ (n_images img_height img_width padding : ℕ)
    (resize_to_fit : Bool) : ℤ :=
  (gridGeometry n_images img_height img_width padding resize_to_fit).n_rows
      * (gridGeometry n_images img_height img_width padding resize_to_fit).new_height
    + ((gridGeometry n_images img_height img_width padding resize_to_fit).n_rows + 1)
      * padding

/-- The canvas width np.ones is asked for. -/
def gridWidthZ (n_images img_height img_width padding : ℕ)
    (resize_to_fit : Bool) : ℤ :=
  (gridGeometry n_images img_height img_width padding resize_to_fit).n_cols
      * (gridGeometry n_images img_height img_width padding resize_to_fit).new_width
    + ((gridGeometry n_images img_height img_width padding resize_to_fit).n_cols + 1)
      * padding

/-- The assembly loop of show_images_grid: fold the per-cell step over the
grid cells in row-major order, starting from the background-filled canvas
and a resize-invocation count of zero. -/
def assembleLoop (n_images img_height img_width padding : ℕ)
    (resize_to_fit normalize : Bool) (batch : ℕ → ℕ → ℕ → ℚ) :
    Except String (ℕ → ℕ → ℚ) × ℕ :=
  (gridPairs (gridGeometry n_images img_height img_width padding resize_to_fit).n_rows
      (gridGeometry n_images img_height img_width padding resize_to_fit).n_cols).foldl
    (assembleStep batch n_images img_height img_width padding
      (gridGeometry n_images img_height img_width padding resize_to_fit).n_cols
      (gridGeometry n_images img_height img_width padding resize_to_fit).new_height.toNat
      (gridGeometry n_images img_height img_width padding resize_to_fit).new_width.toNat
      resize_to_fit normalize
      (gridGeometry n_images img_height img_width padding resize_to_fit).width_scaling
      (gridGeometry n_images img_height img_width padding resize_to_fit).height_scaling)
    (.ok fun _ _ => DEFAULT_BACKGROUND_COLOR, 0)

/-- The body of show_images_grid after shape validation: layout, geometry,
canvas allocation, assembly loop, and the final show_image call (normalize
and resize_to_fit are not forwarded there). -/
def show_images_grid_core (n_images img_height img_width : ℕ)
    (batch : ℕ → ℕ → ℕ → ℚ) (wait : WaitArg) (padding : ℕ)
    (resize_to_fit normalize visualize_negative : Bool) (key : Option ℕ) :
    Except String GridOut × ℕ :=
  if n_images = 0 then (.error "cannot convert float NaN to integer", 0)
  else if img_height = 0 then (.error "division by zero", 0)
  else if gridHeightZ n_images img_height img_width padding resize_to_fit < 0
      ∨ gridWidthZ n_images img_height img_width padding resize_to_fit < 0 then
    (.error "negative dimensions are not allowed", 0)
  else
    match assembleLoop n_images img_height img_width padding resize_to_fit
        normalize batch with
    | (.error e, cnt) => (.error e, cnt)
    | (.ok grid, cnt) =>
      match show_image
          ⟨.float64,
            (gridHeightZ n_images img_height img_width padding resize_to_fit).toNat,
            (gridWidthZ n_images img_height img_width padding resize_to_fit).toNat,
            none, fun i j _ => grid i j⟩
          wait false false visualize_negative key with
      | .error e => (.error e, cnt)
      | .ok dq =>
        (.ok { geom := gridGeometry n_images img_height img_width padding resize_to_fit,
               gridH := (gridHeightZ n_images img_height img_width padding resize_to_fit).toNat,
               gridW := (gridWidthZ n_images img_height img_width padding resize_to_fit).toNat,
               grid := grid, displayed := dq.1, quit := dq.2 }, cnt)

def show_images_grid (shape : List ℕ) (batch : ℕ → ℕ → ℕ → ℚ)
    (wait : WaitArg) (padding : ℕ)
    (resize_to_fit normalize visualize_negative : Bool) (key : Option ℕ) :
    Except String GridOut × ℕ :=
  if ¬ (shape.length = 3 ∨ shape.length = 4) then
    (.error "Images - wrong ndim", 0)
  else match squeezeLast shape with
  | .error e => (.error e, 0)
  | .ok [n_images, img_height, img_width] =>
    show_images_grid_core n_images img_height img_width batch wait padding
      resize_to_fit normalize visualize_negative key
  | .ok _ => (.error "not enough values to unpack", 0)

/-- The canvas of a successful assembly loop outcome (junk on error). -/
def gridOfE (r : Except String (ℕ → ℕ → ℚ) × ℕ) : ℕ → ℕ → ℚ :=
  match r.1 with
  | .ok g => g
  | .error _ => fun _ _ => 0

/-- Whether a show_images_grid outcome is a success. -/
def isOkG (r : Except String GridOut × ℕ) : Bool :=
  match r.1 with
  | .ok _ => true
  | .error _ => false

/-- The GridOut of a successful outcome (a junk value on error). -/
def outOf (r : Except String GridOut × ℕ) : GridOut :=
  match r.1 with
  | .ok o => o
  | .error _ =>
    { geom := ⟨0, 0, 0, 0, 0, 0⟩, gridH := 0, gridW := 0,
      grid := fun _ _ => 0,
      displayed := ⟨.float64, 0, 0, none, fun _ _ _ => 0⟩, quit := false }

/-- A concrete 1 × 1 float image with the single sample 1. -/
def imgOne : Img := ⟨.float64, 1, 1, none, fun _ _ _ => 1⟩

/-- A concrete 1 × 1 float image with the single sample -2. -/
def imgNeg : Img := ⟨.float64, 1, 1, none, fun _ _ _ => -2⟩

/-- A concrete 1 × 1 integer-typed image. -/
def imgByte : Img := ⟨.uint8, 1, 1, none, fun _ _ _ => 1⟩

/-- A concrete 1 × 1 image that already has 3 channels. -/
def img3c : Img := ⟨.float32, 1, 1, some 3, fun _ _ _ => 1⟩

/-- A concrete 1 × 2 float image with samples -2 and 1: its raw maximum is 1
while its absolute maximum is 2. -/
def imgMixed : Img := ⟨.float64, 1, 2, none, fun _ j _ => if j = 0 then -2 else 1⟩

/-- A concrete all-zero batch. -/
def batchZero : ℕ → ℕ → ℕ → ℚ := fun _ _ _ => 0

/-- A concrete 1 × 1 all-zero float image. -/
def imgZero : Img := ⟨.float64, 1, 1, none, fun _ _ _ => 0⟩

theorem eps_pos : 0 < eps := by norm_num [eps]

theorem foldl_max_le_init {a b : ℚ} (l : List ℚ) (h : a ≤ b) :
    a ≤ l.foldl max b := by
  induction l generalizing b with
  | nil => simpa using h
  | cons x xs ih => exact ih (h.trans (le_max_left b x))

theorem le_foldl_max_of_mem {l : List ℚ} {x : ℚ} (hx : x ∈ l) (a : ℚ) :
    x ≤ l.foldl max a := by
  induction l generalizing a with
  | nil => cases hx
  | cons y ys ih =>
    rcases List.mem_cons.mp hx with rfl | hmem
    · exact foldl_max_le_init ys (le_max_right a x)
    · exact ih hmem (max a y)

theorem foldl_max_mem (l : List ℚ) (a : ℚ) :
    l.foldl max a = a ∨ l.foldl max a ∈ l := by
  induction l generalizing a with
  | nil => exact Or.inl rfl
  | cons y ys ih =>
    rcases ih (max a y) with h | h
    · rcases max_choice a y with hm | hm
      · exact Or.inl (by simpa [hm] using h)
      · refine Or.inr ?_
        have hfy : List.foldl max a (y :: ys) = y := by
          rw [List.foldl_cons, h, hm]
        rw [hfy]
        exact List.mem_cons_self y ys
    · exact Or.inr (List.mem_cons_of_mem y h)

theorem le_listMax {l : List ℚ} {x : ℚ} (hx : x ∈ l) : x ≤ listMax l := by
  cases l with
  | nil => cases hx
  | cons a l =>
    rcases List.mem_cons.mp hx with rfl | hmem
    · exact foldl_max_le_init l le_rfl
    · exact le_foldl_max_of_mem hmem a

theorem listMax_mem {l : List ℚ} (h : l ≠ []) : listMax l ∈ l := by
  cases l with
  | nil => exact absurd rfl h
  | cons a l =>
    rcases foldl_max_mem l a with hm | hm
    · exact (by simp [listMax, hm] : listMax (a :: l) ∈ a :: l)
    · exact List.mem_cons_of_mem a hm

theorem foldl_max_mul {c : ℚ} (hc : 0 ≤ c) (l : List ℚ) (a : ℚ) :
    (l.map fun v => c * v).foldl max (c * a) = c * l.foldl max a := by
  induction l generalizing a with
  | nil => rfl
  | cons x xs ih => simpa [mul_max_of_nonneg _ _ hc] using ih (max a x)

theorem listMax_map_mul {c : ℚ} (hc : 0 ≤ c) (l : List ℚ) :
    listMax (l.map fun v => c * v) = c * listMax l := by
  cases l with
  | nil => simp [listMax]
  | cons a l => simpa [listMax] using foldl_max_mul hc l a

theorem pyRound_nonpos {x : ℚ} (hx : x ≤ 0) : pyRound x ≤ 0 := by
  have hfl : ⌊x⌋ ≤ 0 := by
    have := Int.floor_le_floor hx
    simpa using this
  unfold pyRound
  split
  · exact hfl
  · rename_i hhalf
    push_neg at hhalf
    have hlt : (⌊x⌋ : ℚ) < 0 := by
      have h1 : (⌊x⌋ : ℚ) ≤ x - 1 / 2 := by linarith [hhalf]
      linarith [hx]
    have : ⌊x⌋ < 0 := by exact_mod_cast hlt
    split
    · omega
    · split <;> omega

theorem isqrtAux_eq : ∀ k n : ℕ, Nat.sqrt n ≤ k → isqrtAux k n = Nat.sqrt n := by
  intro k
  induction k with
  | zero =>
    intro n hk
    have : Nat.sqrt n = 0 := Nat.le_zero.mp hk
    simp [isqrtAux, this]
  | succ k ih =>
    intro n hk
    unfold isqrtAux
    by_cases hsq : (k + 1) * (k + 1) ≤ n
    · rw [if_pos hsq]
      have h1 : k + 1 ≤ Nat.sqrt n := Nat.le_sqrt.mpr hsq
      omega
    · rw [if_neg hsq]
      apply ih
      have hne : Nat.sqrt n ≠ k + 1 := by
        intro he
        exact hsq (he ▸ Nat.sqrt_le n)
      omega

theorem isqrt_eq (n : ℕ) : isqrt n = Nat.sqrt n :=
  isqrtAux_eq n n (Nat.sqrt_le_self n)

theorem best_grid_rows_pos {N : ℕ} (hN : 1 ≤ N) : 0 < (best_grid N).1 := by
  have : (best_grid N).1 = Nat.sqrt N := isqrt_eq N
  rw [this]
  exact Nat.sqrt_pos.mpr hN

theorem best_grid_cols_pos {N : ℕ} (hN : 1 ≤ N) : 0 < (best_grid N).2 := by
  have h1 : (best_grid N).2 = (N + Nat.sqrt N - 1) / Nat.sqrt N := by
    show (N + isqrt N - 1) / isqrt N = _
    rw [isqrt_eq]
  rw [h1]
  have hrpos : 0 < Nat.sqrt N := Nat.sqrt_pos.mpr hN
  show 1 ≤ (N + Nat.sqrt N - 1) / Nat.sqrt N
  rw [Nat.le_div_iff_mul_le hrpos, one_mul]
  omega

/-- C4: for every N ≥ 1, best_grid returns rows = floor(sqrt(N)) (the largest
integer whose square is at most N) and cols = ceil(N / rows) (the least k with
rows * k ≥ N), and the result satisfies rows ≥ 1, rows * cols ≥ N and
cols ≥ rows. -/
theorem best_grid_spec (N : ℕ) (hN : 1 ≤ N) :
    (best_grid N).1 = Nat.sqrt N ∧
    1 ≤ (best_grid N).1 ∧
    (best_grid N).1 * (best_grid N).1 ≤ N ∧
    N < ((best_grid N).1 + 1) * ((best_grid N).1 + 1) ∧
    N ≤ (best_grid N).1 * (best_grid N).2 ∧
    (best_grid N).1 ≤ (best_grid N).2 ∧
    ∀ k : ℕ, N ≤ (best_grid N).1 * k → (best_grid N).2 ≤ k := by
  have hr : (best_grid N).1 = Nat.sqrt N := isqrt_eq N
  have hrpos : 0 < Nat.sqrt N := Nat.sqrt_pos.mpr hN
  have hsq : Nat.sqrt N * Nat.sqrt N ≤ N := Nat.sqrt_le N
  have hsq2 : N < (Nat.sqrt N + 1) * (Nat.sqrt N + 1) := Nat.lt_succ_sqrt N
  have hcols : (best_grid N).2 = (N + Nat.sqrt N - 1) / Nat.sqrt N := by
    show (N + isqrt N - 1) / isqrt N = _
    rw [isqrt_eq]
  refine ⟨hr, ?_, ?_, ?_, ?_, ?_, ?_⟩
  · simpa [hr] using hrpos
  · simpa [hr] using hsq
  · simpa [hr] using hsq2
  · -- rows * cols ≥ N
    rw [hr, hcols]
    obtain ⟨q, r, hrlt, hqr⟩ : ∃ q r, r < Nat.sqrt N ∧
        (N + Nat.sqrt N - 1) = Nat.sqrt N * q + r := by
      exact ⟨(N + Nat.sqrt N - 1) / Nat.sqrt N, (N + Nat.sqrt N - 1) % Nat.sqrt N,
        Nat.mod_lt _ hrpos, by rw [Nat.div_add_mod]⟩
    have hq : (N + Nat.sqrt N - 1) / Nat.sqrt N = q := by
      rw [hqr]
      rw [Nat.mul_add_div hrpos, Nat.div_eq_of_lt hrlt]
      omega
    rw [hq]
    omega
  · -- cols ≥ rows
    rw [hr, hcols]
    have h1 : Nat.sqrt N ≤ N / Nat.sqrt N :=
      (Nat.le_div_iff_mul_le hrpos).mpr hsq
    have h2 : N / Nat.sqrt N ≤ (N + Nat.sqrt N - 1) / Nat.sqrt N :=
      Nat.div_le_div_right (by omega)
    exact h1.trans h2
  · -- minimality of cols
    intro k hk
    rw [hcols]
    rw [hr] at hk
    have : N + Nat.sqrt N - 1 < (k + 1) * Nat.sqrt N := by
      have hkn : Nat.sqrt N * k = k * Nat.sqrt N := Nat.mul_comm _ _
      rw [hkn] at hk
      obtain ⟨M, hM⟩ : ∃ M, k * Nat.sqrt N = M := ⟨_, rfl⟩
      rw [add_mul, one_mul, hM]
      rw [hM] at hk
      omega
    have := (Nat.div_lt_iff_lt_mul hrpos).mpr this
    omega

/-- Witness for C4 at N = 7: best_grid gives the 2 × 4 layout. -/
theorem best_grid_spec_witness :
    (1 ≤ 7 ∧ (best_grid 7).1 = 2 ∧ (best_grid 7).2 = 4) ∧
    (7 ≤ (best_grid 7).1 * (best_grid 7).2 ∧ (best_grid 7).1 ≤ (best_grid 7).2) := by
  have hbg : best_grid 7 = (2, 4) := by decide
  have hs := best_grid_spec 7 (by norm_num)
  exact ⟨⟨by norm_num, by rw [hbg], by rw [hbg]⟩, hs.2.2.2.2.1, hs.2.2.2.2.2.1⟩

theorem mem_samples {img : Img} {i j c : ℕ}
    (hi : i < img.h) (hj : j < img.w) (hc : c < img.cn) :
    img.pix i j c ∈ img.samples := by
  unfold Img.samples
  refine List.mem_flatMap.mpr ⟨i, List.mem_range.mpr hi, ?_⟩
  refine List.mem_flatMap.mpr ⟨j, List.mem_range.mpr hj, ?_⟩
  exact List.mem_map.mpr ⟨c, List.mem_range.mpr hc, rfl⟩

theorem samples_eq_of_exists {img : Img} {v : ℚ} (hv : v ∈ img.samples) :
    ∃ i j c, i < img.h ∧ j < img.w ∧ c < img.cn ∧ v = img.pix i j c := by
  unfold Img.samples at hv
  obtain ⟨i, hi, hv⟩ := List.mem_flatMap.mp hv
  obtain ⟨j, hj, hv⟩ := List.mem_flatMap.mp hv
  obtain ⟨c, hc, hv⟩ := List.mem_map.mp hv
  exact ⟨i, j, c, List.mem_range.mp hi, List.mem_range.mp hj,
    List.mem_range.mp hc, hv.symm⟩

/-- C5: on a floating-point single-channel image the sign encoder returns a
3-channel image whose channels are blue = max(-v, 0), green = 0,
red = max(v, 0) per sample; it signals a precondition failure on
non-floating-point input and on input whose channel axis is not a singleton
(in particular on input with more than one channel). -/
theorem visualize_spec (image : Img) :
    (image.dtype.isFloat = true → image.channels.getD 1 = 1 →
      ∃ out, visualize_grayscale_negative_values image = .ok out ∧
        out.channels = some 3 ∧ out.h = image.h ∧ out.w = image.w ∧
        ∀ i j, out.pix i j 0 = max (-(image.pix i j 0)) 0 ∧
          out.pix i j 1 = 0 ∧ out.pix i j 2 = max (image.pix i j 0) 0) ∧
    (image.dtype.isFloat = false →
      visualize_grayscale_negative_values image = .error "Image is not floating point") ∧
    (image.dtype.isFloat = true → ∀ c, image.channels = some c → 2 ≤ c →
      visualize_grayscale_negative_values image = .error "Image is already 3-channel") := by
  refine ⟨?_, ?_, ?_⟩
  · intro hf hc
    unfold visualize_grayscale_negative_values
    rw [if_neg (by simp [hf]), if_neg (by simp [hc])]
    refine ⟨_, rfl, rfl, rfl, rfl, ?_⟩
    intro i j
    refine ⟨?_, ?_, ?_⟩ <;> dsimp only <;> norm_num
    · rcases lt_or_le (image.pix i j 0) 0 with hv | hv
      · rw [if_pos hv, max_eq_left (by linarith)]
      · rw [if_neg (not_lt.mpr hv), max_eq_right (by linarith)]
    · rcases lt_or_le (image.pix i j 0) 0 with hv | hv
      · rw [if_pos hv, max_eq_right (by linarith)]
      · rw [if_neg (not_lt.mpr hv), max_eq_left (by linarith)]
  · intro hf
    unfold visualize_grayscale_negative_values
    rw [if_pos hf]
  · intro hf c hc h2
    unfold visualize_grayscale_negative_values
    rw [if_neg (by simp [hf]), if_pos (by simp [hc]; omega)]

/-- Witness for C5: the encoder succeeds on a float image with a negative
sample and fails on an integer image and on a 3-channel image. -/
theorem visualize_spec_witness :
    (∃ out, visualize_grayscale_negative_values imgNeg = .ok out ∧
      out.channels = some 3 ∧ out.h = imgNeg.h ∧ out.w = imgNeg.w ∧
      ∀ i j, out.pix i j 0 = max (-(imgNeg.pix i j 0)) 0 ∧
        out.pix i j 1 = 0 ∧ out.pix i j 2 = max (imgNeg.pix i j 0) 0) ∧
    visualize_grayscale_negative_values imgByte = .error "Image is not floating point" ∧
    visualize_grayscale_negative_values img3c = .error "Image is already 3-channel" :=
  ⟨(visualize_spec imgNeg).1 rfl rfl, (visualize_spec imgByte).2.1 rfl,
    (visualize_spec img3c).2.2 rfl 3 rfl (by norm_num)⟩

/-- C1 (the code evaluated at the key inputs): show_image returns
`not (key in [27, ord(q)])` — False when escape (27) or q (113) is reported
by the display primitive, True for any other key and True when no key is
pressed.  This is the opposite of the documented mapping, which the claim
states. -/
theorem show_image_quit_inverted :
    (show_image imgOne (.bool true) false false true (some 27)).map Prod.snd = .ok false ∧
    (show_image imgOne (.bool true) false false true (some 113)).map Prod.snd = .ok false ∧
    (show_image imgOne (.bool true) false false true (some 32)).map Prod.snd = .ok true ∧
    (show_image imgOne (.bool true) false false true none).map Prod.snd = .ok true := by
  refine ⟨?_, ?_, ?_, ?_⟩ <;> rfl

/-- C10: with visualize_negative set, show_image converts to 3 channels only
when the preprocessed buffer holds a strictly negative sample; a buffer with
no negative sample is handed to the display primitive unchanged apart from
the division by 255, keeping its channel structure. -/
theorem show_image_skips_encoding_without_negatives (image : Img) (wait : WaitArg)
    (rt nm : Bool) (key : Option ℕ) (buf : Img)
    (hf : image.dtype.isFloat = true)
    (hpre : show_image_pre image rt nm = .ok buf)
    (hneg : ¬ hasNeg buf) :
    show_image image wait rt nm true key =
      .ok ({ buf with pix := fun i j c => buf.pix i j c / 255 },
        !decide (keyVal key = 27 ∨ keyVal key = 113)) ∧
    ({ buf with pix := fun i j c => buf.pix i j c / 255 } : Img).channels
      = buf.channels := by
  refine ⟨?_, rfl⟩
  have h2 : (if (true = true ∧ hasNeg buf) then visualize_grayscale_negative_values buf
      else Except.ok buf) = Except.ok buf := if_neg (fun hcon => hneg hcon.2)
  unfold show_image
  rw [if_neg (by simp [hf]), hpre]
  simp only [h2]
  try rw [if_neg (show ¬ (True ∧ hasNeg buf) from fun hcon => hneg hcon.2)]
  try rfl

/-- Witness for C10 at a concrete buffer with no negative sample. -/
theorem show_image_skips_encoding_without_negatives_witness :
    show_image imgOne (.bool true) false false true none =
      .ok ({ imgOne with pix := fun i j c => imgOne.pix i j c / 255 },
        !decide (keyVal none = 27 ∨ keyVal none = 113)) ∧
    ({ imgOne with pix := fun i j c => imgOne.pix i j c / 255 } : Img).channels
      = imgOne.channels :=
  show_image_skips_encoding_without_negatives imgOne (.bool true) false false none
    imgOne rfl rfl (by decide)

theorem mem_samples2 {h w i j : ℕ} (f : ℕ → ℕ → ℚ) (hi : i < h) (hj : j < w) :
    f i j ∈ samples2 h w f := by
  unfold samples2
  exact List.mem_flatMap.mpr ⟨i, List.mem_range.mpr hi,
    List.mem_map.mpr ⟨j, List.mem_range.mpr hj, rfl⟩⟩

theorem samples2_elim {h w : ℕ} {f : ℕ → ℕ → ℚ} {v : ℚ}
    (hv : v ∈ samples2 h w f) : ∃ i j, i < h ∧ j < w ∧ v = f i j := by
  unfold samples2 at hv
  obtain ⟨i, hi, hv⟩ := List.mem_flatMap.mp hv
  obtain ⟨j, hj, hv⟩ := List.mem_map.mp hv
  exact ⟨i, j, List.mem_range.mp hi, List.mem_range.mp hj, hv.symm⟩

theorem samples2_comp (h w : ℕ) (f : ℕ → ℕ → ℚ) (t : ℚ → ℚ) :
    samples2 h w (fun i j => t (f i j)) = (samples2 h w f).map t := by
  unfold samples2
  rw [List.map_flatMap]
  simp only [List.map_map]
  rfl

theorem maxAbs2_nonneg (h w : ℕ) (f : ℕ → ℕ → ℚ) : 0 ≤ maxAbs2 h w f := by
  unfold maxAbs2
  rcases eq_or_ne ((samples2 h w f).map fun v => |v|) [] with he | he
  · rw [he]
    norm_num [listMax]
  · have hm := listMax_mem he
    obtain ⟨u, _, hu⟩ := List.mem_map.mp hm
    rw [← hu]
    exact abs_nonneg u

theorem le_maxAbs2 {h w i j : ℕ} (f : ℕ → ℕ → ℚ) (hi : i < h) (hj : j < w) :
    |f i j| ≤ maxAbs2 h w f :=
  le_listMax (List.mem_map.mpr ⟨f i j, mem_samples2 f hi hj, rfl⟩)

theorem maxAbs2_pos {h w i j : ℕ} (f : ℕ → ℕ → ℚ) (hi : i < h) (hj : j < w)
    (hf : f i j ≠ 0) : 0 < maxAbs2 h w f :=
  lt_of_lt_of_le (abs_pos.mpr hf) (le_maxAbs2 f hi hj)

theorem maxAbs2_normalize (h w : ℕ) (f : ℕ → ℕ → ℚ) :
    maxAbs2 h w (normalize_abs2 h w f)
      = (255 / (maxAbs2 h w f + eps)) * maxAbs2 h w f := by
  have hmnn : 0 ≤ maxAbs2 h w f := maxAbs2_nonneg h w f
  have hmpos : 0 < maxAbs2 h w f + eps := add_pos_of_nonneg_of_pos hmnn eps_pos
  set m := maxAbs2 h w f with hm
  set k := 255 / (m + eps) with hk
  have hknn : 0 ≤ k := by
    rw [hk]
    exact div_nonneg (by norm_num) hmpos.le
  have hfun : normalize_abs2 h w f = fun i j => k * f i j := by
    funext i j
    show f i j / (maxAbs2 h w f + eps) * 255 = k * f i j
    rw [hk, hm]
    ring
  rw [hfun]
  show listMax ((samples2 h w fun i j => k * f i j).map fun v => |v|) = k * m
  rw [samples2_comp h w f fun v => k * v]
  rw [List.map_map]
  have habs : ((fun v : ℚ => |v|) ∘ fun v : ℚ => k * v) = fun v : ℚ => k * |v| := by
    funext v
    simp [Function.comp, abs_mul, abs_of_nonneg hknn]
  rw [habs]
  have hsplit : (fun v : ℚ => k * |v|) = (fun v : ℚ => k * v) ∘ fun v : ℚ => |v| := rfl
  rw [hsplit, ← List.map_map, listMax_map_mul hknn, hm]
  rfl

/-- C7 (amended): an all-zero image normalizes to all zeros under both
normalization policies (there is no division error: the epsilon keeps the
denominator nonzero); for the per-image policy of the mosaic path (absolute
maximum m), the maximum absolute value of the normalized image equals
255 * m / (m + eps), which is at most 255 and within 255 * eps / m of 255,
for every non-all-zero image.  The raw-max policy of show_image does not
satisfy this boundedness — see the counterexample theorem. -/
theorem normalize_bounds :
    (∀ img : Img,
      (∀ i, i < img.h → ∀ j, j < img.w → ∀ c, c < img.cn → img.pix i j c = 0) →
      ∀ i, i < img.h → ∀ j, j < img.w → ∀ c, c < img.cn →
        (normalize_raw img).pix i j c = 0) ∧
    (∀ (h w : ℕ) (f : ℕ → ℕ → ℚ),
      (∀ i, i < h → ∀ j, j < w → f i j = 0) →
      ∀ i, i < h → ∀ j, j < w → normalize_abs2 h w f i j = 0) ∧
    (∀ (h w : ℕ) (f : ℕ → ℕ → ℚ) (i j : ℕ), i < h → j < w → f i j ≠ 0 →
      maxAbs2 h w (normalize_abs2 h w f)
          = 255 * maxAbs2 h w f / (maxAbs2 h w f + eps) ∧
      maxAbs2 h w (normalize_abs2 h w f) ≤ 255 ∧
      255 - 255 * eps / maxAbs2 h w f ≤ maxAbs2 h w (normalize_abs2 h w f)) := by
  refine ⟨?_, ?_, ?_⟩
  · intro img hz i hi j hj c hc
    show img.pix i j c / (npMax img + eps) * 255 = 0
    rw [hz i hi j hj c hc]
    simp
  · intro h w f hz i hi j hj
    show f i j / (maxAbs2 h w f + eps) * 255 = 0
    rw [hz i hi j hj]
    simp
  · intro h w f i j hi hj hf
    have hmpos : 0 < maxAbs2 h w f := maxAbs2_pos f hi hj hf
    have hden : 0 < maxAbs2 h w f + eps := by linarith [eps_pos]
    have hkey : maxAbs2 h w (normalize_abs2 h w f)
        = 255 * maxAbs2 h w f / (maxAbs2 h w f + eps) := by
      rw [maxAbs2_normalize, div_mul_eq_mul_div]
    refine ⟨hkey, ?_, ?_⟩
    · rw [hkey, div_le_iff hden]
      nlinarith [eps_pos]
    · rw [hkey]
      have hne : maxAbs2 h w f + eps ≠ 0 := ne_of_gt hden
      have h1 : 255 * maxAbs2 h w f / (maxAbs2 h w f + eps)
          = 255 - 255 * eps / (maxAbs2 h w f + eps) := by
        field_simp
        ring
      have h2 : 255 * eps / (maxAbs2 h w f + eps) ≤ 255 * eps / maxAbs2 h w f :=
        div_le_div_of_nonneg_left (by nlinarith [eps_pos]) hmpos (by linarith [eps_pos])
      linarith

/-- Witness for C7 (amended) at the all-zero 1 × 1 image and at the constant
image with value 2. -/
theorem normalize_bounds_witness :
    (normalize_raw imgZero).pix 0 0 0 = 0 ∧
    normalize_abs2 1 1 (fun _ _ => 0) 0 0 = 0 ∧
    (maxAbs2 1 1 (normalize_abs2 1 1 fun _ _ => 2)
        = 255 * maxAbs2 1 1 (fun _ _ => (2:ℚ)) / (maxAbs2 1 1 (fun _ _ => (2:ℚ)) + eps) ∧
      maxAbs2 1 1 (normalize_abs2 1 1 fun _ _ => 2) ≤ 255 ∧
      255 - 255 * eps / maxAbs2 1 1 (fun _ _ => (2:ℚ))
        ≤ maxAbs2 1 1 (normalize_abs2 1 1 fun _ _ => 2)) :=
  ⟨normalize_bounds.1 imgZero (fun _ _ _ _ _ _ => rfl) 0 (by decide) 0 (by decide)
      0 (by decide),
    normalize_bounds.2.1 1 1 (fun _ _ => 0) (fun _ _ _ _ => rfl) 0 (by norm_num)
      0 (by norm_num),
    normalize_bounds.2.2 1 1 (fun _ _ => 2) 0 0 (by norm_num) (by norm_num)
      (by norm_num)⟩

/-- C7 counterexample: under the raw-max normalization of show_image, the
1 × 2 image [-2, 1] is not all-zero yet normalizes to a buffer whose maximum
absolute value is at least 500 — about twice the advertised scale_max 255,
outside any floating tolerance. -/
theorem normalize_raw_unbounded :
    show_image_pre imgMixed false true = .ok (normalize_raw imgMixed) ∧
    imgMixed.pix 0 0 0 ≠ 0 ∧
    500 ≤ npMaxAbs (normalize_raw imgMixed) := by
  refine ⟨rfl, by decide, ?_⟩
  have h1pos : (0:ℚ) < 1 + eps := by norm_num [eps]
  have hmax : npMax imgMixed = 1 := by
    have hs : npMax imgMixed = max (-2 : ℚ) 1 := rfl
    rw [hs]
    exact max_eq_right (by norm_num)
  have habs : npMaxAbs (normalize_raw imgMixed)
      = max |(-2 : ℚ) / (npMax imgMixed + eps) * 255|
          |(1 : ℚ) / (npMax imgMixed + eps) * 255| := rfl
  rw [habs, hmax]
  have ha : |(-2 : ℚ) / (1 + eps) * 255| = 2 / (1 + eps) * 255 := by
    rw [show (-2 : ℚ) / (1 + eps) * 255 = -(2 / (1 + eps) * 255) from by ring,
      abs_neg]
    exact abs_of_nonneg (mul_nonneg (div_nonneg (by norm_num) h1pos.le) (by norm_num))
  have hb : |(1 : ℚ) / (1 + eps) * 255| = 1 / (1 + eps) * 255 :=
    abs_of_nonneg (mul_nonneg (div_nonneg (by norm_num) h1pos.le) (by norm_num))
  rw [ha, hb]
  have hle : (1 : ℚ) / (1 + eps) * 255 ≤ 2 / (1 + eps) * 255 :=
    mul_le_mul_of_nonneg_right ((div_le_div_right h1pos).mpr (by norm_num)) (by norm_num)
  rw [max_eq_left hle, div_mul_eq_mul_div, le_div_iff h1pos]
  norm_num [eps]

/-- C6: both normalization call sites compute buffer / (m + 1e-15) * 255;
in show_image m is np.max(buffer), the raw maximum, while in the mosaic loop
of show_images_grid m is np.max(np.abs(image)) of the single cell image.  On
the mixed-sign image [-2, 1] the two maxima differ, so the call sites keep
genuinely distinct behaviors. -/
theorem normalization_call_sites :
    (∀ image : Img, 1 ≤ image.h → 1 ≤ image.w → 1 ≤ image.cn →
      show_image_pre image false true = .ok (normalize_raw image) ∧
      ∀ i j c, (normalize_raw image).pix i j c
        = image.pix i j c / (npMax image + eps) * 255) ∧
    (∀ (batch : ℕ → ℕ → ℕ → ℚ) (h w : ℕ) (ws hs : ℚ) (n : ℕ),
      1 ≤ h → 1 ≤ w →
      cellImage batch h w false true ws hs n
          = .ok (h, w, normalize_abs2 h w fun i j => batch n i j) ∧
      ∀ i j, normalize_abs2 h w (fun i2 j2 => batch n i2 j2) i j
        = batch n i j / (maxAbs2 h w (fun i2 j2 => batch n i2 j2) + eps) * 255) ∧
    npMax imgMixed ≠ npMaxAbs imgMixed := by
  refine ⟨?_, ?_, ?_⟩
  · intro image hh hw hc
    constructor
    · unfold show_image_pre
      rw [if_neg (show ¬ (image.h = 0 ∨ image.w = 0 ∨ image.cn = 0) by omega)]
      rfl
    · intro i j c
      rfl
  · intro batch h w ws hs n hh hw
    constructor
    · show (if h = 0 ∨ w = 0 then
          (.error "zero-size array reduction" : Except String (ℕ × ℕ × (ℕ → ℕ → ℚ)))
        else .ok (h, w, normalize_abs2 h w fun i j => batch n i j))
        = .ok (h, w, normalize_abs2 h w fun i j => batch n i j)
      rw [if_neg (show ¬ (h = 0 ∨ w = 0) by omega)]
    · intro i j
      rfl
  · have h1 : npMax imgMixed = max (-2 : ℚ) 1 := rfl
    have h2 : npMaxAbs imgMixed = max |(-2 : ℚ)| |(1 : ℚ)| := rfl
    have ha : |(-2 : ℚ)| = 2 := by
      rw [abs_of_nonpos (by norm_num)]
      norm_num
    have hb : |(1 : ℚ)| = 1 := abs_of_nonneg (by norm_num)
    rw [h1, h2, ha, hb, max_eq_right (by norm_num : (-2:ℚ) ≤ 1),
      max_eq_left (by norm_num : (1:ℚ) ≤ 2)]
    norm_num

/-- Witness for C6 at a concrete image and a concrete batch. -/
theorem normalization_call_sites_witness :
    (show_image_pre imgOne false true = .ok (normalize_raw imgOne) ∧
      ∀ i j c, (normalize_raw imgOne).pix i j c
        = imgOne.pix i j c / (npMax imgOne + eps) * 255) ∧
    (cellImage batchZero 1 1 false true 0 0 0
        = .ok (1, 1, normalize_abs2 1 1 fun i j => batchZero 0 i j) ∧
      ∀ i j, normalize_abs2 1 1 (fun i2 j2 => batchZero 0 i2 j2) i j
        = batchZero 0 i j / (maxAbs2 1 1 (fun i2 j2 => batchZero 0 i2 j2) + eps) * 255) :=
  ⟨normalization_call_sites.1 imgOne (by decide) (by decide) (by decide),
    normalization_call_sites.2.1 batchZero 1 1 0 0 0 (by norm_num) (by norm_num)⟩

/-- C8: for the geometry show_images_grid computes,
height_scaling = (DESIRED_HEIGHT - (rows + 1) * padding) / (rows * source_height),
width_scaling always equals height_scaling; with resize_to_fit enabled the
cell sizes are round(scale * source size), and with it disabled the cell
sizes are the source sizes and the per-cell processing is the identity. -/
theorem grid_geometry_spec (N h w pad : ℕ) (b : Bool) :
    (gridGeometry N h w pad b).height_scaling
        = ((DESIRED_HEIGHT : ℚ) - ((gridGeometry N h w pad b).n_rows + 1) * pad)
          / (((gridGeometry N h w pad b).n_rows : ℚ) * h) ∧
    (gridGeometry N h w pad b).width_scaling
        = (gridGeometry N h w pad b).height_scaling ∧
    (gridGeometry N h w pad b).new_height
        = (if b = true then pyRound ((gridGeometry N h w pad b).height_scaling * h)
           else (h : ℤ)) ∧
    (gridGeometry N h w pad b).new_width
        = (if b = true then pyRound ((gridGeometry N h w pad b).width_scaling * w)
           else (w : ℤ)) ∧
    ∀ (batch : ℕ → ℕ → ℕ → ℚ) (n : ℕ),
      cellImage batch h w false false (gridGeometry N h w pad b).width_scaling
          (gridGeometry N h w pad b).height_scaling n
        = .ok (h, w, fun i j => batch n i j) :=
  ⟨rfl, rfl, rfl, rfl, fun _ _ => rfl⟩

theorem gridPairs_mem {rows cols : ℕ} {rc : ℕ × ℕ} (h : rc ∈ gridPairs rows cols) :
    rc.1 < rows ∧ rc.2 < cols := by
  unfold gridPairs at h
  obtain ⟨r, hr, h⟩ := List.mem_flatMap.mp h
  obtain ⟨c, hc, h⟩ := List.mem_map.mp h
  rw [← h]
  exact ⟨List.mem_range.mp hr, List.mem_range.mp hc⟩

theorem gridPairs_cons {rows cols : ℕ} (hr : 0 < rows) (hc : 0 < cols) :
    ∃ l, gridPairs rows cols = (0, 0) :: l := by
  cases rows with
  | zero => omega
  | succ r2 =>
    cases cols with
    | zero => omega
    | succ c2 =>
      refine ⟨((List.map Nat.succ (List.range c2)).map fun c => ((0:ℕ), c)) ++
        (List.map Nat.succ (List.range r2)).flatMap
          (fun r => (List.range (c2 + 1)).map fun c => (r, c)), ?_⟩
      rw [gridPairs,
        show List.range (r2 + 1) = 0 :: List.map Nat.succ (List.range r2) from
          List.range_succ_eq_map r2,
        List.flatMap_cons,
        show List.range (c2 + 1) = 0 :: List.map Nat.succ (List.range c2) from
          List.range_succ_eq_map c2,
        List.map_cons, List.cons_append]

theorem interval_sep {a b pad nh : ℕ} (hab : a < b) :
    (a + 1) * pad + a * nh + nh ≤ (b + 1) * pad + b * nh := by
  calc (a + 1) * pad + a * nh + nh
      = (a + 1) * (pad + nh) := by ring
    _ ≤ b * (pad + nh) := Nat.mul_le_mul_right _ hab
    _ = b * pad + b * nh := by ring
    _ ≤ (b + 1) * pad + b * nh :=
        Nat.add_le_add_right (Nat.mul_le_mul_right _ (Nat.le_succ b)) _

theorem inRect_disjoint {pad nh nw : ℕ} {rc rc2 : ℕ × ℕ} {i j : ℕ}
    (hne : rc ≠ rc2) (h1 : inRect pad nh nw rc i j) :
    ¬ inRect pad nh nw rc2 i j := by
  intro h2
  obtain ⟨ha1, ha2, ha3, ha4⟩ := h1
  obtain ⟨hb1, hb2, hb3, hb4⟩ := h2
  by_cases hr : rc.1 = rc2.1
  · have hcne : rc.2 ≠ rc2.2 := by
      intro hceq
      exact hne (Prod.ext hr hceq)
    rcases Nat.lt_or_ge rc.2 rc2.2 with hlt | hge
    · have hsep := @interval_sep _ _ pad nw hlt
      exact absurd (lt_of_lt_of_le ha4 (le_trans hsep hb3)) (lt_irrefl j)
    · have hlt2 : rc2.2 < rc.2 := by omega
      have hsep := @interval_sep _ _ pad nw hlt2
      exact absurd (lt_of_lt_of_le hb4 (le_trans hsep ha3)) (lt_irrefl j)
  · rcases Nat.lt_or_ge rc.1 rc2.1 with hlt | hge
    · have hsep := @interval_sep _ _ pad nh hlt
      exact absurd (lt_of_lt_of_le ha2 (le_trans hsep hb1)) (lt_irrefl i)
    · have hlt2 : rc2.1 < rc.1 := by omega
      have hsep := @interval_sep _ _ pad nh hlt2
      exact absurd (lt_of_lt_of_le hb2 (le_trans hsep ha1)) (lt_irrefl i)

theorem assembleStep_skip (batch : ℕ → ℕ → ℕ → ℚ)
    (N hI wI pad cols nh nw : ℕ) (rt nm : Bool) (ws hs : ℚ)
    (g : ℕ → ℕ → ℚ) (cnt : ℕ) (rc : ℕ × ℕ) (hn : N ≤ rc.1 * cols + rc.2) :
    assembleStep batch N hI wI pad cols nh nw rt nm ws hs (.ok g, cnt) rc
      = (.ok g, cnt) := by
  simp only [assembleStep]
  rw [if_pos hn]

theorem assembleStep_cellfail (batch : ℕ → ℕ → ℕ → ℚ)
    (N hI wI pad cols nh nw : ℕ) (rt nm : Bool) (ws hs : ℚ)
    (g : ℕ → ℕ → ℚ) (cnt : ℕ) (rc : ℕ × ℕ) (hn : rc.1 * cols + rc.2 < N)
    (e : String)
    (hcell : cellImage batch hI wI rt nm ws hs (rc.1 * cols + rc.2) = .error e) :
    assembleStep batch N hI wI pad cols nh nw rt nm ws hs (.ok g, cnt) rc
      = (.error e, if rt = true then cnt + 1 else cnt) := by
  simp only [assembleStep]
  rw [if_neg (not_le.mpr hn), hcell]

theorem assembleStep_place (batch : ℕ → ℕ → ℕ → ℚ)
    (N hI wI pad cols nh nw : ℕ) (rt nm : Bool) (ws hs : ℚ)
    (g : ℕ → ℕ → ℚ) (cnt : ℕ) (rc : ℕ × ℕ) (hn : rc.1 * cols + rc.2 < N)
    (rh rw2 : ℕ) (f : ℕ → ℕ → ℚ)
    (hcell : cellImage batch hI wI rt nm ws hs (rc.1 * cols + rc.2)
      = .ok (rh, rw2, f))
    (hsz : rh = nh ∧ rw2 = nw) :
    assembleStep batch N hI wI pad cols nh nw rt nm ws hs (.ok g, cnt) rc
      = (.ok (placeImage g ((rc.1 + 1) * pad + rc.1 * nh)
          ((rc.2 + 1) * pad + rc.2 * nw) nh nw f),
        if rt = true then cnt + 1 else cnt) := by
  simp only [assembleStep]
  rw [if_neg (not_le.mpr hn), hcell]
  simp only [if_pos hsz]

theorem assembleStep_szfail (batch : ℕ → ℕ → ℕ → ℚ)
    (N hI wI pad cols nh nw : ℕ) (rt nm : Bool) (ws hs : ℚ)
    (g : ℕ → ℕ → ℚ) (cnt : ℕ) (rc : ℕ × ℕ) (hn : rc.1 * cols + rc.2 < N)
    (rh rw2 : ℕ) (f : ℕ → ℕ → ℚ)
    (hcell : cellImage batch hI wI rt nm ws hs (rc.1 * cols + rc.2)
      = .ok (rh, rw2, f))
    (hsz : ¬ (rh = nh ∧ rw2 = nw)) :
    assembleStep batch N hI wI pad cols nh nw rt nm ws hs (.ok g, cnt) rc
      = (.error "could not broadcast input array",
        if rt = true then cnt + 1 else cnt) := by
  simp only [assembleStep]
  rw [if_neg (not_le.mpr hn), hcell]
  simp only [if_neg hsz]

theorem foldl_assembleStep_error (batch : ℕ → ℕ → ℕ → ℚ)
    (N hI wI pad cols nh nw : ℕ) (rt nm : Bool) (ws hs : ℚ) :
    ∀ (l : List (ℕ × ℕ)) (e : String) (cnt : ℕ),
      l.foldl (assembleStep batch N hI wI pad cols nh nw rt nm ws hs)
        (.error e, cnt) = (.error e, cnt) := by
  intro l
  induction l with
  | nil =>
    intro e cnt
    rfl
  | cons rc l2 ih =>
    intro e cnt
    rw [List.foldl_cons]
    exact ih e cnt

theorem foldl_assembleStep_untouched (batch : ℕ → ℕ → ℕ → ℚ)
    (N hI wI pad cols nh nw : ℕ) (rt nm : Bool) (ws hs : ℚ) (i j : ℕ) :
    ∀ (l : List (ℕ × ℕ)) (g g2 : ℕ → ℕ → ℚ) (cnt cnt2 : ℕ),
      l.foldl (assembleStep batch N hI wI pad cols nh nw rt nm ws hs)
        (.ok g, cnt) = (.ok g2, cnt2) →
      (∀ rc ∈ l, rc.1 * cols + rc.2 < N → ¬ inRect pad nh nw rc i j) →
      g2 i j = g i j := by
  intro l
  induction l with
  | nil =>
    intro g g2 cnt cnt2 hfold _
    injection hfold with h1 h2
    injection h1 with h3
    rw [← h3]
  | cons rc l2 ih =>
    intro g g2 cnt cnt2 hfold hout
    rw [List.foldl_cons] at hfold
    by_cases hn : N ≤ rc.1 * cols + rc.2
    · rw [assembleStep_skip batch N hI wI pad cols nh nw rt nm ws hs g cnt rc hn]
        at hfold
      exact ih g g2 cnt cnt2 hfold
        fun q hq hql => hout q (List.mem_cons_of_mem rc hq) hql
    · push_neg at hn
      have hnotin := hout rc (List.mem_cons_self rc l2) hn
      rcases hcell : cellImage batch hI wI rt nm ws hs (rc.1 * cols + rc.2)
        with e | trip
      · rw [assembleStep_cellfail batch N hI wI pad cols nh nw rt nm ws hs g cnt
          rc hn e hcell,
          foldl_assembleStep_error batch N hI wI pad cols nh nw rt nm ws hs]
          at hfold
        exact absurd (congrArg Prod.fst hfold) (by simp)
      · obtain ⟨rh, rw2, f⟩ := trip
        by_cases hsz : rh = nh ∧ rw2 = nw
        · rw [assembleStep_place batch N hI wI pad cols nh nw rt nm ws hs g cnt
            rc hn rh rw2 f hcell hsz] at hfold
          have hrec := ih _ g2 _ cnt2 hfold
            fun q hq hql => hout q (List.mem_cons_of_mem rc hq) hql
          rw [hrec]
          exact if_neg fun hcon => hnotin hcon
        · rw [assembleStep_szfail batch N hI wI pad cols nh nw rt nm ws hs g cnt
            rc hn rh rw2 f hcell hsz,
            foldl_assembleStep_error batch N hI wI pad cols nh nw rt nm ws hs]
            at hfold
          exact absurd (congrArg Prod.fst hfold) (by simp)

theorem show_images_grid_ok (N h w pad : ℕ) (batch : ℕ → ℕ → ℕ → ℚ)
    (wait : WaitArg) (rt nm vn : Bool) (key : Option ℕ) (out : GridOut)
    (hout : (show_images_grid [N, h, w, 1] batch wait pad rt nm vn key).1
      = .ok out) :
    ∃ cnt, assembleLoop N h w pad rt nm batch = (.ok out.grid, cnt) := by
  replace hout : (show_images_grid_core N h w batch wait pad rt nm vn key).1
      = .ok out := hout
  unfold show_images_grid_core at hout
  by_cases h0 : N = 0
  · rw [if_pos h0] at hout
    exact absurd hout (by simp)
  rw [if_neg h0] at hout
  by_cases hh0 : h = 0
  · rw [if_pos hh0] at hout
    exact absurd hout (by simp)
  rw [if_neg hh0] at hout
  by_cases hneg : gridHeightZ N h w pad rt < 0 ∨ gridWidthZ N h w pad rt < 0
  · rw [if_pos hneg] at hout
    exact absurd hout (by simp)
  rw [if_neg hneg] at hout
  rcases hA : assembleLoop N h w pad rt nm batch with ⟨st, cnt⟩
  rw [hA] at hout
  cases st with
  | error e => exact absurd hout (by simp)
  | ok grid =>
    dsimp only at hout
    rcases hS : show_image ⟨.float64, (gridHeightZ N h w pad rt).toNat,
        (gridWidthZ N h w pad rt).toNat, none, fun i j _ => grid i j⟩
        wait false false vn key with e | dq
    · rw [hS] at hout
      exact absurd hout (by simp)
    · rw [hS] at hout
      dsimp only at hout
      simp only [Except.ok.injEq] at hout
      refine ⟨cnt, ?_⟩
      rw [← hout]

/-- C2 (the code evaluated at the decisive shapes): a 4-dim batch
[N, H, W, 1] is accepted, but a 3-dim batch [N, H, W] with W larger than one
is rejected by the unconditional squeeze of the last axis, and a 2-dim input
fails the ndim assertion.  The claim — like the docstring of
show_images_grid and the repository demo driver, which pass 3-dim batches —
expects [N, H, W] to be accepted with no axis dropped. -/
theorem grid_shape_handling :
    isOkG (show_images_grid [1, 2, 2, 1] (fun _ _ _ => 1) (.bool true) 1
      false false false none) = true ∧
    (show_images_grid [1, 2, 2] (fun _ _ _ => 1) (.bool true) 1
      false false false none).1
      = .error "cannot select an axis to squeeze out which has size not equal to one" ∧
    (show_images_grid [1, 2] (fun _ _ _ => 1) (.bool true) 1
      false false false none).1 = .error "Images - wrong ndim" :=
  ⟨rfl, rfl, rfl⟩

theorem pyRound_intCast (z : ℤ) : pyRound ((z : ℚ)) = z := by
  unfold pyRound
  rw [Int.floor_intCast]
  simp only [sub_self]
  norm_num

theorem isOkG_exists {r : Except String GridOut × ℕ} (h : isOkG r = true) :
    ∃ o, r.1 = .ok o := by
  rcases hr : r.1 with e | o
  · unfold isOkG at h
    rw [hr] at h
    simp at h
  · exact ⟨o, rfl⟩

/-- C9: for every assembly (resize_to_fit, normalize and visualize_negative
arbitrary), every grid cell whose row-major index r * cols + c is at least N
keeps the background constant 0.3 * 255 over its whole placement rectangle —
of the computed cell size new_height × new_width — and so does every canvas
point lying in no occupied placement rectangle (the padding bands); for the
concrete batch of 7 one-pixel images (2 × 4 layout) exactly one cell —
cell (1, 3) — is entirely background. -/
theorem grid_background_cells :
    (∀ (N h w pad : ℕ) (batch : ℕ → ℕ → ℕ → ℚ) (wait : WaitArg)
        (rt nm vn : Bool) (key : Option ℕ) (out : GridOut),
      (show_images_grid [N, h, w, 1] batch wait pad rt nm vn key).1
        = .ok out →
      (∀ r c, N ≤ r * (best_grid N).2 + c →
        ∀ i j, inRect pad (gridGeometry N h w pad rt).new_height.toNat
            (gridGeometry N h w pad rt).new_width.toNat (r, c) i j →
          out.grid i j = DEFAULT_BACKGROUND_COLOR) ∧
      (∀ i j,
        (∀ r, r < (best_grid N).1 → ∀ c, c < (best_grid N).2 →
          r * (best_grid N).2 + c < N →
          ¬ inRect pad (gridGeometry N h w pad rt).new_height.toNat
              (gridGeometry N h w pad rt).new_width.toNat (r, c) i j) →
        out.grid i j = DEFAULT_BACKGROUND_COLOR)) ∧
    (∀ out7 : GridOut,
      (show_images_grid [7, 1, 1, 1] batchZero (.bool true) 1 false false false
          none).1 = .ok out7 →
      (∀ i j, inRect 1 1 1 (1, 3) i j →
        out7.grid i j = DEFAULT_BACKGROUND_COLOR) ∧
      ∀ r c, r < 2 → c < 4 →
        (∀ i j, inRect 1 1 1 (r, c) i j →
          out7.grid i j = DEFAULT_BACKGROUND_COLOR) →
        (r, c) = (1, 3)) := by
  have hmain : ∀ (N h w pad : ℕ) (batch : ℕ → ℕ → ℕ → ℚ) (wait : WaitArg)
      (rt nm vn : Bool) (key : Option ℕ) (out : GridOut),
      (show_images_grid [N, h, w, 1] batch wait pad rt nm vn key).1
        = .ok out →
      (∀ r c, N ≤ r * (best_grid N).2 + c →
        ∀ i j, inRect pad (gridGeometry N h w pad rt).new_height.toNat
            (gridGeometry N h w pad rt).new_width.toNat (r, c) i j →
          out.grid i j = DEFAULT_BACKGROUND_COLOR) ∧
      (∀ i j,
        (∀ r, r < (best_grid N).1 → ∀ c, c < (best_grid N).2 →
          r * (best_grid N).2 + c < N →
          ¬ inRect pad (gridGeometry N h w pad rt).new_height.toNat
              (gridGeometry N h w pad rt).new_width.toNat (r, c) i j) →
        out.grid i j = DEFAULT_BACKGROUND_COLOR) := by
    intro N h w pad batch wait rt nm vn key out hout
    obtain ⟨cnt, hA⟩ :=
      show_images_grid_ok N h w pad batch wait rt nm vn key out hout
    unfold assembleLoop at hA
    have hrows : (gridGeometry N h w pad rt).n_rows = (best_grid N).1 := rfl
    have hcols : (gridGeometry N h w pad rt).n_cols = (best_grid N).2 := rfl
    rw [hrows, hcols] at hA
    constructor
    · intro r c hn i j hin
      have := foldl_assembleStep_untouched batch N h w pad (best_grid N).2
        (gridGeometry N h w pad rt).new_height.toNat
        (gridGeometry N h w pad rt).new_width.toNat
        rt nm (gridGeometry N h w pad rt).width_scaling
        (gridGeometry N h w pad rt).height_scaling i j
        (gridPairs (best_grid N).1 (best_grid N).2)
        (fun _ _ => DEFAULT_BACKGROUND_COLOR) out.grid 0 cnt hA ?_
      · exact this
      · intro q hq hql
        by_cases hqe : q = (r, c)
        · subst hqe
          dsimp only at hql
          omega
        · exact inRect_disjoint (fun he => hqe he.symm) hin
    · intro i j hnone
      have := foldl_assembleStep_untouched batch N h w pad (best_grid N).2
        (gridGeometry N h w pad rt).new_height.toNat
        (gridGeometry N h w pad rt).new_width.toNat
        rt nm (gridGeometry N h w pad rt).width_scaling
        (gridGeometry N h w pad rt).height_scaling i j
        (gridPairs (best_grid N).1 (best_grid N).2)
        (fun _ _ => DEFAULT_BACKGROUND_COLOR) out.grid 0 cnt hA ?_
      · exact this
      · intro q hq hql
        obtain ⟨hq1, hq2⟩ := gridPairs_mem hq
        exact hnone q.1 hq1 q.2 hq2 hql
  refine ⟨hmain, ?_⟩
  intro out7 hout7
  obtain ⟨cnt7, hA7⟩ := show_images_grid_ok 7 1 1 1 batchZero (.bool true)
    false false false none out7 hout7
  have hgrid : out7.grid = gridOfE (assembleLoop 7 1 1 1 false false batchZero) := by
    rw [hA7]
    rfl
  constructor
  · intro i j hin
    exact (hmain 7 1 1 1 batchZero (.bool true) false false false none out7
      hout7).1 1 3 (by decide) i j hin
  · intro r c hr hc hbg
    interval_cases r <;> interval_cases c
    · have h1 := hbg 1 1 (by decide)
      rw [hgrid] at h1
      rw [show gridOfE (assembleLoop 7 1 1 1 false false batchZero) 1 1 = 0
        from rfl] at h1
      exact absurd h1.symm (by norm_num [DEFAULT_BACKGROUND_COLOR])
    · have h1 := hbg 1 3 (by decide)
      rw [hgrid] at h1
      rw [show gridOfE (assembleLoop 7 1 1 1 false false batchZero) 1 3 = 0
        from rfl] at h1
      exact absurd h1.symm (by norm_num [DEFAULT_BACKGROUND_COLOR])
    · have h1 := hbg 1 5 (by decide)
      rw [hgrid] at h1
      rw [show gridOfE (assembleLoop 7 1 1 1 false false batchZero) 1 5 = 0
        from rfl] at h1
      exact absurd h1.symm (by norm_num [DEFAULT_BACKGROUND_COLOR])
    · have h1 := hbg 1 7 (by decide)
      rw [hgrid] at h1
      rw [show gridOfE (assembleLoop 7 1 1 1 false false batchZero) 1 7 = 0
        from rfl] at h1
      exact absurd h1.symm (by norm_num [DEFAULT_BACKGROUND_COLOR])
    · have h1 := hbg 3 1 (by decide)
      rw [hgrid] at h1
      rw [show gridOfE (assembleLoop 7 1 1 1 false false batchZero) 3 1 = 0
        from rfl] at h1
      exact absurd h1.symm (by norm_num [DEFAULT_BACKGROUND_COLOR])
    · have h1 := hbg 3 3 (by decide)
      rw [hgrid] at h1
      rw [show gridOfE (assembleLoop 7 1 1 1 false false batchZero) 3 3 = 0
        from rfl] at h1
      exact absurd h1.symm (by norm_num [DEFAULT_BACKGROUND_COLOR])
    · have h1 := hbg 3 5 (by decide)
      rw [hgrid] at h1
      rw [show gridOfE (assembleLoop 7 1 1 1 false false batchZero) 3 5 = 0
        from rfl] at h1
      exact absurd h1.symm (by norm_num [DEFAULT_BACKGROUND_COLOR])
    · rfl

/-- Witness for C9: a resize-disabled 2-image batch (1 × 2 layout) shows the
background over the rectangle of the out-of-range cell (0, 2) and at a
padding corner; a resize-enabled one-image run (computed cell size
498 × 498) shows the background at a padding corner; the 7-image instance
has its unique background cell at (1, 3). -/
theorem grid_background_cells_witness :
    ((outOf (show_images_grid [2, 1, 1, 1] batchZero (.bool true) 1
        false false false none)).grid 1 5 = DEFAULT_BACKGROUND_COLOR ∧
      (outOf (show_images_grid [2, 1, 1, 1] batchZero (.bool true) 1
        false false false none)).grid 0 0 = DEFAULT_BACKGROUND_COLOR) ∧
    (∃ out : GridOut,
      (show_images_grid [1, 1, 1, 1] batchZero (.bool true) 1
        true false false none).1 = .ok out ∧
      out.grid 0 0 = DEFAULT_BACKGROUND_COLOR) ∧
    ((outOf (show_images_grid [7, 1, 1, 1] batchZero (.bool true) 1
        false false false none)).grid 3 7 = DEFAULT_BACKGROUND_COLOR ∧
      ∀ r c, r < 2 → c < 4 →
        (∀ i j, inRect 1 1 1 (r, c) i j →
          (outOf (show_images_grid [7, 1, 1, 1] batchZero (.bool true) 1
            false false false none)).grid i j = DEFAULT_BACKGROUND_COLOR) →
        (r, c) = (1, 3)) := by
  have h2 := grid_background_cells.1 2 1 1 1 batchZero (.bool true) false false
    false none (outOf (show_images_grid [2, 1, 1, 1] batchZero (.bool true) 1
      false false false none)) rfl
  have h7 := grid_background_cells.2 (outOf (show_images_grid [7, 1, 1, 1]
    batchZero (.bool true) 1 false false false none)) rfl
  -- evaluation of the resize-enabled one-image run
  have hbg1 : best_grid 1 = (1, 1) := rfl
  have hsc : (gridGeometry 1 1 1 1 true).height_scaling = 498 := by
    simp only [gridGeometry, hbg1]
    norm_num [DESIRED_HEIGHT]
  have hws : (gridGeometry 1 1 1 1 true).width_scaling = 498 := hsc
  have h498 : pyRound ((498 : ℚ)) = 498 := by
    rw [show (498 : ℚ) = ((498 : ℤ) : ℚ) from by norm_num]
    exact pyRound_intCast 498
  have hprH : pyRound ((gridGeometry 1 1 1 1 true).height_scaling
      * ((1 : ℕ) : ℚ)) = 498 := by
    rw [hsc, show (498 : ℚ) * ((1 : ℕ) : ℚ) = 498 from by norm_num]
    exact h498
  have hprW : pyRound ((gridGeometry 1 1 1 1 true).width_scaling
      * ((1 : ℕ) : ℚ)) = 498 := by
    rw [hws, show (498 : ℚ) * ((1 : ℕ) : ℚ) = 498 from by norm_num]
    exact h498
  have hnewH : (gridGeometry 1 1 1 1 true).new_height = 498 := by
    have h1 : (gridGeometry 1 1 1 1 true).new_height
        = pyRound ((gridGeometry 1 1 1 1 true).height_scaling
          * ((1 : ℕ) : ℚ)) := rfl
    rw [h1, hprH]
  have hnewW : (gridGeometry 1 1 1 1 true).new_width = 498 := by
    have h1 : (gridGeometry 1 1 1 1 true).new_width
        = pyRound ((gridGeometry 1 1 1 1 true).width_scaling
          * ((1 : ℕ) : ℚ)) := rfl
    rw [h1, hprW]
  have hnhNat : (gridGeometry 1 1 1 1 true).new_height.toNat = 498 := by
    rw [hnewH]
    rfl
  have hnwNat : (gridGeometry 1 1 1 1 true).new_width.toNat = 498 := by
    rw [hnewW]
    rfl
  have hHZ : gridHeightZ 1 1 1 1 true = 500 := by
    unfold gridHeightZ
    rw [hnewH]
    rfl
  have hWZ : gridWidthZ 1 1 1 1 true = 500 := by
    unfold gridWidthZ
    rw [hnewW]
    rfl
  have hresf : cvResize2D (gridGeometry 1 1 1 1 true).width_scaling
      (gridGeometry 1 1 1 1 true).height_scaling 1 1
      (fun i j => batchZero 0 i j)
      = .ok (498, 498, fun i j => batchZero 0
          (min (⌊(i : ℚ) / (gridGeometry 1 1 1 1 true).height_scaling⌋).toNat
            (1 - 1))
          (min (⌊(j : ℚ) / (gridGeometry 1 1 1 1 true).width_scaling⌋).toNat
            (1 - 1))) := by
    unfold cvResize2D
    rw [if_neg (by norm_num : ¬ ((1 : ℕ) = 0 ∨ (1 : ℕ) = 0))]
    rw [if_neg (show ¬ (pyRound ((gridGeometry 1 1 1 1 true).height_scaling
        * ((1 : ℕ) : ℚ)) ≤ 0 ∨
        pyRound ((gridGeometry 1 1 1 1 true).width_scaling
        * ((1 : ℕ) : ℚ)) ≤ 0) from by
      rw [hprH, hprW]
      norm_num)]
    rw [hprH, hprW]
    rfl
  have hcellEv : cellImage batchZero 1 1 true false
      (gridGeometry 1 1 1 1 true).width_scaling
      (gridGeometry 1 1 1 1 true).height_scaling 0
      = .ok (498, 498, fun i j => batchZero 0
          (min (⌊(i : ℚ) / (gridGeometry 1 1 1 1 true).height_scaling⌋).toNat
            (1 - 1))
          (min (⌊(j : ℚ) / (gridGeometry 1 1 1 1 true).width_scaling⌋).toNat
            (1 - 1))) := by
    unfold cellImage
    rw [if_pos rfl, hresf]
    rfl
  obtain ⟨f, hcellEv⟩ : ∃ g, cellImage batchZero 1 1 true false
      (gridGeometry 1 1 1 1 true).width_scaling
      (gridGeometry 1 1 1 1 true).height_scaling 0 = .ok (498, 498, g) :=
    ⟨_, hcellEv⟩
  have hstep := assembleStep_place batchZero 1 1 1 1
    (gridGeometry 1 1 1 1 true).n_cols
    (gridGeometry 1 1 1 1 true).new_height.toNat
    (gridGeometry 1 1 1 1 true).new_width.toNat true false
    (gridGeometry 1 1 1 1 true).width_scaling
    (gridGeometry 1 1 1 1 true).height_scaling
    (fun _ _ => DEFAULT_BACKGROUND_COLOR) 0 (0, 0) (by decide) 498 498 f
    (by simpa using hcellEv) ⟨hnhNat.symm, hnwNat.symm⟩
  have hloopEv : assembleLoop 1 1 1 1 true false batchZero
      = (.ok (placeImage (fun _ _ => DEFAULT_BACKGROUND_COLOR)
          ((0 + 1) * 1 + 0 * (gridGeometry 1 1 1 1 true).new_height.toNat)
          ((0 + 1) * 1 + 0 * (gridGeometry 1 1 1 1 true).new_width.toNat)
          (gridGeometry 1 1 1 1 true).new_height.toNat
          (gridGeometry 1 1 1 1 true).new_width.toNat f), 1) := by
    unfold assembleLoop
    rw [show gridPairs (gridGeometry 1 1 1 1 true).n_rows
        (gridGeometry 1 1 1 1 true).n_cols = [(0, 0)] from rfl,
      List.foldl_cons, List.foldl_nil, hstep]
    rfl
  have hok : isOkG (show_images_grid [1, 1, 1, 1] batchZero (.bool true) 1
      true false false none) = true := by
    show isOkG (show_images_grid_core 1 1 1 batchZero (.bool true) 1
      true false false none) = true
    unfold show_images_grid_core
    rw [if_neg (show ¬ (gridHeightZ 1 1 1 1 true < 0
        ∨ gridWidthZ 1 1 1 1 true < 0) from by
      rw [hHZ, hWZ]
      decide)]
    rw [hloopEv]
    rfl
  obtain ⟨out, hout⟩ := isOkG_exists hok
  refine ⟨⟨h2.1 0 2 (by decide) 1 5 (by decide),
      h2.2 0 0 (by decide)⟩,
    ⟨out, hout, ?_⟩,
    ⟨h7.1 3 7 (by decide), h7.2⟩⟩
  refine (grid_background_cells.1 1 1 1 1 batchZero (.bool true) true false
    false none out hout).2 0 0 ?_
  intro r hr c hc hn hmem
  have h1 := hmem.1
  omega

theorem grid_scale_fail_aux (N h w pad : ℕ) (batch : ℕ → ℕ → ℕ → ℚ)
    (wait : WaitArg) (nm vn : Bool) (key : Option ℕ)
    (hN : 1 ≤ N) (hh : 1 ≤ h)
    (hscale : (gridGeometry N h w pad true).height_scaling ≤ 0)
    (hH : 0 ≤ gridHeightZ N h w pad true)
    (hW : 0 ≤ gridWidthZ N h w pad true) :
    ∃ e, show_images_grid [N, h, w, 1] batch wait pad true nm vn key
        = (.error e, 1) ∧
      (e = "resize: empty output size" ∨ e = "resize: empty source") := by
  have hcell : ∃ e, cellImage batch h w true nm
      (gridGeometry N h w pad true).width_scaling
      (gridGeometry N h w pad true).height_scaling 0 = .error e ∧
      (e = "resize: empty output size" ∨ e = "resize: empty source") := by
    have hres : ∃ e, cvResize2D (gridGeometry N h w pad true).width_scaling
        (gridGeometry N h w pad true).height_scaling h w
        (fun i j => batch 0 i j) = .error e ∧
        (e = "resize: empty output size" ∨ e = "resize: empty source") := by
      by_cases hw0 : w = 0
      · refine ⟨"resize: empty source", ?_, Or.inr rfl⟩
        unfold cvResize2D
        rw [if_pos (Or.inr hw0)]
      · refine ⟨"resize: empty output size", ?_, Or.inl rfl⟩
        unfold cvResize2D
        rw [if_neg (by omega : ¬ (h = 0 ∨ w = 0))]
        rw [if_pos (Or.inl (pyRound_nonpos
          (mul_nonpos_of_nonpos_of_nonneg hscale (by positivity))))]
    obtain ⟨e, he, hor⟩ := hres
    refine ⟨e, ?_, hor⟩
    simp only [cellImage, if_true, he]
  obtain ⟨e, hcellE, hor⟩ := hcell
  obtain ⟨ltail, hpairs⟩ :=
    gridPairs_cons (best_grid_rows_pos hN) (best_grid_cols_pos hN)
  have hstep : assembleStep batch N h w pad (best_grid N).2
      (gridGeometry N h w pad true).new_height.toNat
      (gridGeometry N h w pad true).new_width.toNat true nm
      (gridGeometry N h w pad true).width_scaling
      (gridGeometry N h w pad true).height_scaling
      (.ok fun _ _ => DEFAULT_BACKGROUND_COLOR, 0) (0, 0)
      = (.error e, 1) := by
    have hh2 := assembleStep_cellfail batch N h w pad (best_grid N).2
      (gridGeometry N h w pad true).new_height.toNat
      (gridGeometry N h w pad true).new_width.toNat true nm
      (gridGeometry N h w pad true).width_scaling
      (gridGeometry N h w pad true).height_scaling
      (fun _ _ => DEFAULT_BACKGROUND_COLOR) 0 (0, 0) (by simpa using hN) e
      (by simpa using hcellE)
    simpa using hh2
  have hloop : assembleLoop N h w pad true nm batch = (.error e, 1) := by
    unfold assembleLoop
    rw [show (gridGeometry N h w pad true).n_rows = (best_grid N).1 from rfl,
      show (gridGeometry N h w pad true).n_cols = (best_grid N).2 from rfl,
      hpairs, List.foldl_cons, hstep,
      foldl_assembleStep_error batch N h w pad (best_grid N).2
        (gridGeometry N h w pad true).new_height.toNat
        (gridGeometry N h w pad true).new_width.toNat true nm
        (gridGeometry N h w pad true).width_scaling
        (gridGeometry N h w pad true).height_scaling]
  refine ⟨e, ?_, hor⟩
  show show_images_grid_core N h w batch wait pad true nm vn key = (.error e, 1)
  unfold show_images_grid_core
  rw [if_neg (by omega : ¬ N = 0), if_neg (by omega : ¬ h = 0),
    if_neg (show ¬ (gridHeightZ N h w pad true < 0
        ∨ gridWidthZ N h w pad true < 0) by
      push_neg
      exact ⟨hH, hW⟩),
    hloop]

/-- C3 (amended): show_images_grid performs no validity pre-check on the
scaling.  When resize_to_fit is enabled and the height scaling is
non-positive (and the canvas allocation itself does not fail, i.e. the
integer canvas sizes are nonnegative), the call fails with an error raised
by the external resize primitive at the first resize invocation: exactly one
resize is attempted, not zero. -/
theorem grid_nonpositive_scale_fails (N h w pad : ℕ) (batch : ℕ → ℕ → ℕ → ℚ)
    (wait : WaitArg) (nm vn : Bool) (key : Option ℕ)
    (hN : 1 ≤ N) (hh : 1 ≤ h)
    (hscale : (gridGeometry N h w pad true).height_scaling ≤ 0)
    (hH : 0 ≤ gridHeightZ N h w pad true)
    (hW : 0 ≤ gridWidthZ N h w pad true) :
    ∃ e, show_images_grid [N, h, w, 1] batch wait pad true nm vn key
        = (.error e, 1) ∧
      (e = "resize: empty output size" ∨ e = "resize: empty source") :=
  grid_scale_fail_aux N h w pad batch wait nm vn key hN hh hscale hH hW

/-- C3 counterexample: a single 1 × 1 image with padding 250 yields
height_scaling = (500 - 2 * 250) / 1 = 0 ≤ 0, yet the call is not rejected
before the resize is attempted: exactly one resize-primitive invocation
happens, and the error surfaces from it. -/
theorem grid_no_precheck_counterexample :
    (show_images_grid [1, 1, 1, 1] batchZero (.bool true) 250
      true false false none).2 = 1 ∧
    isOkG (show_images_grid [1, 1, 1, 1] batchZero (.bool true) 250
      true false false none) = false := by
  have hbg1 : best_grid 1 = (1, 1) := rfl
  have hscale : (gridGeometry 1 1 1 250 true).height_scaling ≤ 0 := by
    simp only [gridGeometry, hbg1]
    norm_num [DESIRED_HEIGHT]
  have hH : 0 ≤ gridHeightZ 1 1 1 250 true := by
    simp only [gridHeightZ, gridGeometry, hbg1]
    norm_num [DESIRED_HEIGHT, pyRound]
  have hW : 0 ≤ gridWidthZ 1 1 1 250 true := by
    simp only [gridWidthZ, gridGeometry, hbg1]
    norm_num [DESIRED_HEIGHT, pyRound]
  obtain ⟨e, heq, _⟩ := grid_scale_fail_aux 1 1 1 250 batchZero (.bool true)
    false false none (by norm_num) (by norm_num) hscale hH hW
  rw [heq]
  exact ⟨rfl, rfl⟩

/-- Witness for C3 (amended) at the same concrete configuration. -/
theorem grid_nonpositive_scale_fails_witness :
    ∃ e, show_images_grid [1, 1, 1, 1] batchZero (.bool true) 250
        true false false none = (.error e, 1) ∧
      (e = "resize: empty output size" ∨ e = "resize: empty source") := by
  apply grid_nonpositive_scale_fails 1 1 1 250 batchZero (.bool true)
    false false none (by norm_num) (by norm_num)
  · show (gridGeometry 1 1 1 250 true).height_scaling ≤ 0
    simp only [gridGeometry, show best_grid 1 = (1, 1) from rfl]
    norm_num [DESIRED_HEIGHT]
  · show 0 ≤ gridHeightZ 1 1 1 250 true
    simp only [gridHeightZ, gridGeometry, show best_grid 1 = (1, 1) from rfl]
    norm_num [DESIRED_HEIGHT, pyRound]
  · show 0 ≤ gridWidthZ 1 1 1 250 true
    simp only [gridWidthZ, gridGeometry, show best_grid 1 = (1, 1) from rfl]
    norm_num [DESIRED_HEIGHT, pyRound]

end CvShow
